import Mathlib

/-!
Verification development for the misinformation-crawler repository.

The Python source is shallowly embedded:
* `extract_element` (misinformation/extractors.py, lines 24-101): the
  declarative selector engine.  A scrapy response is modelled as its URL
  together with its XPath evaluator (`expression ↦ ordered list of string
  matches`, which is the only interface the code uses).  `logging.warning`
  calls are counted; `logging.debug` calls are not (the claims distinguish
  warnings from debug diagnostics).
* the datetime normalizer (`extract_datetime_string`,
  `pendulum_datetime_extract`, `arrow_datetime_extract`, lines 104-165):
  the external pendulum/arrow parsing libraries are black-box collaborators
  and enter the model as function bundles; the string-parsing calls fail
  only with exceptions caught by the source's
  `except (ValueError, TypeError, RuntimeError)` blocks, so they are
  modelled as total `Option`-returning functions.  Two error paths are NOT
  caught by the source and are modelled explicitly with `Except` results:
  the Python `IndexError` raised by `date_format[2]` / `date_format[-3]`
  outside any try block, and the `OverflowError` that
  `pendulum.from_timestamp` raises on an out-of-range epoch value (an
  `ArithmeticError`, not among the caught types).  The recursion of
  `arrow_datetime_extract` is given explicit fuel; the development proves
  the recursion depth is bounded, so any fuel of at least 3 computes the
  function's value.
* `extract_article` (lines 168-244): `ReadabiliPy.parse_to_json` is a
  black-box collaborator; Python `dict` key presence is modelled with
  `Option`-valued record fields (`none` = key absent).
* the two middlewares (`CloudFlareMiddleware`, `ButtonPressMiddleware`):
  the live selenium session is an external collaborator; the session
  operations issued by `ButtonPressMiddleware.process_response` are traced
  so that frame claims ("performs no session operation") are statable.
-/

namespace Crawler

/-- Python substring test `sub in s`. -/
def pyIn (sub s : String) : Bool := decide (sub.data <:+: s.data)

/-- Python `str.strip()`: remove leading and trailing whitespace.  (Defined
over the character list so that it is kernel-reducible; `String.trim` is
not.) -/
def pyStrip (s : String) : String :=
  ⟨((s.data.dropWhile Char.isWhitespace).reverse.dropWhile Char.isWhitespace).reverse⟩

/-- Python `s.startswith(p)`.  (Defined over the character list so that it
is kernel-reducible; `String.startsWith` is not.) -/
def pyStartsWith (s p : String) : Bool := decide (p.data <+: s.data)

/-! ### Selector engine (extractors.py lines 24-101) -/

/-- Result of `extract_element`: Python `None`, a string, or a list of
strings (the `all` match rule). -/
inductive ElemResult where
  | none : ElemResult
  | str (s : String) : ElemResult
  | list (xs : List String) : ElemResult
  deriving DecidableEq, Repr

/-- An extract specification (a Python dict in the source).  `select_method`
and `select_expression` are accessed with mandatory lookups; `match_rule`
and `warn_if_missing` with presence checks / `.get` defaults, hence
`Option`; `datetime_format` models the optional `datetime-format` key read
by `extract_article`. -/
structure ExtractSpec where
  select_method : String
  select_expression : String
  match_rule : Option String
  warn_if_missing : Option Bool
  datetime_format : Option String

/-- A scrapy response, as used by the extraction code: its URL and its
XPath evaluator returning the ordered list of raw string matches
(`response.xpath(expression).extract()`). -/
structure Response where
  url : String
  xpath : String → List String

/-- The comparison key used by the `largest` match rule:
`sorted(elements, key=lambda elem: len(elem))`. -/
def lenLe (a b : String) : Prop := a.length ≤ b.length

instance : DecidableRel lenLe := fun a b => Nat.decLe a.length b.length

instance : IsTotal String lenLe := ⟨fun a b => Nat.le_total a.length b.length⟩

instance : IsTrans String lenLe := ⟨fun _ _ _ h h' => Nat.le_trans h h'⟩

/-- Final normalization of `extract_element`
(`if elements == "": return None`). -/
def normalizeEmpty : ElemResult → ElemResult
  | .str s => if s = "" then .none else .str s
  | r => r

/-- Embedding of `extract_element` (extractors.py lines 24-101), additionally
returning the number of `logging.warning` calls it makes (`logging.debug`
calls for unrecognized match rules / select methods are not warnings and are
not counted).  Python `sorted` is a stable ascending sort, embedded as
`List.insertionSort` (which is stable, hence extensionally the same sort). -/
def extract_element_full (response : Response) (extract_spec : ExtractSpec) :
    ElemResult × Nat :=
  let match_rule := extract_spec.match_rule.getD "single"
  let warn_if_missing := extract_spec.warn_if_missing.getD true
  let step : ElemResult × Nat :=
    if extract_spec.select_method = "xpath" then
      match (response.xpath extract_spec.select_expression).map (fun item => pyStrip item) with
      | [] => (.none, if warn_if_missing then 1 else 0)
      | e :: es =>
        if match_rule = "single" then
          (.str e, if ((e :: es).length != 1) && warn_if_missing then 1 else 0)
        else if match_rule = "first" then
          (.str e, 0)
        else if match_rule = "last" then
          (.str ((e :: es).getLast (List.cons_ne_nil e es)), 0)
        else if match_rule = "largest" then
          (.str ((List.insertionSort lenLe (e :: es)).getLastD e), 0)
        else if match_rule = "concatenate" then
          (.str (String.intercalate ", " ((e :: es).filter (fun x => x ≠ ""))), 0)
        else if match_rule = "group" then
          (.str ("<div>" ++ String.join (e :: es) ++ "</div>"), 0)
        else if match_rule = "all" then
          (.list (e :: es), 0)
        else
          (.none, 0)
    else
      (.none, 0)
  (normalizeEmpty step.1, step.2)

/-- The value returned by `extract_element` (the warnings are a logging side
effect). -/
def extract_element (response : Response) (extract_spec : ExtractSpec) : ElemResult :=
  (extract_element_full response extract_spec).1

/-- Embedding of the helper `xpath_extract_spec` (lines 15-22): all four keys
are present in the dict it builds. -/
def xpath_extract_spec (xpath_expression : String) (match_rule : String)
    (warn_if_missing : Bool) : ExtractSpec :=
  ⟨"xpath", xpath_expression, some match_rule, some warn_if_missing, Option.none⟩

/-! ### Datetime normalizer (extractors.py lines 104-165)

`date_string` is `Option String`: Python `None` or a `str`.  (A non-`str`,
non-`None` value such as the list produced by the `all` match rule behaves
exactly like `None` here: every library call on it raises `TypeError`,
which the source catches, and the format-string indexing that can escape
does not look at `date_string` at all.)

The pendulum and arrow libraries are black boxes.  Their calls sit inside
`except (ValueError, TypeError, RuntimeError)` blocks and their documented
failure modes are those caught types, so each library call is modelled as a
total function returning `Option DT` for an abstract datetime type `DT`.
What is NOT caught anywhere is the `IndexError` that Python raises when
`arrow_datetime_extract` evaluates `date_format[2]` or `date_format[-3]`
on a too-short format string; the embedding makes it explicit. -/

/-- An uncaught Python exception (`indexError` from format-string indexing,
`overflowError` from `pendulum.from_timestamp` on an out-of-range epoch),
or exhaustion of the explicit recursion fuel given to
`arrow_datetime_extract` (`fuelOut`, which provably never occurs with
fuel ≥ 3). -/
inductive PyErr where
  | indexError : PyErr
  | overflowError : PyErr
  | fuelOut : PyErr
  deriving DecidableEq, Repr

/-- The pendulum library calls made by `pendulum_datetime_extract`.
`fromTimestamp s` stands for `pendulum.from_timestamp(int(s))`: the
`ValueError` of a failed `int(s)` is raised and caught inside the same try
block (folded into `.ok none`), but `pendulum.from_timestamp` on an
out-of-range epoch raises `OverflowError`, which is NOT among the caught
`(ValueError, TypeError, RuntimeError)` and escapes — hence the `Except`
result on this call. -/
structure PendulumLib (DT : Type) where
  parseIso : String → Option DT
  fromFormat : String → String → Option DT
  fromTimestamp : String → Except PyErr (Option DT)

/-- The arrow library calls made by `arrow_datetime_extract`. -/
structure ArrowLib (DT : Type) where
  get : String → Option DT
  getWithFormat : String → String → Option DT

/-- The `format` method shared by pendulum and arrow datetime objects,
used by `extract_datetime_string` for re-export: `fmt` is
`datetime.format('YYYY-MM-DDTHH:mm:ss')` and `fmtWithOffset` is
`datetime.format('YYYY-MM-DDTHH:mm:ssZ')`. -/
structure DTFormatter (DT : Type) where
  fmt : DT → String
  fmtWithOffset : DT → String

/-- Embedding of `pendulum_datetime_extract` (lines 124-139).  Every caught
failure inside the try block (including `TypeError` on a `None` date
string and `ValueError` from `int(...)`) is folded to `.ok none`; the
uncaught `OverflowError` of `pendulum.from_timestamp` propagates as an
`Except.error`.  A `None` or empty-string `date_format` is falsy, so the
`pendulum.parse` branch runs. -/
def pendulum_datetime_extract {DT : Type} (PL : PendulumLib DT)
    (date_string : Option String) (date_format : Option String) :
    Except PyErr (Option DT) :=
  match date_format with
  | some f =>
    if f ≠ "" then
      if pyIn "unix" f then
        match date_string with
        | some s =>
          let s := if pyIn "milliseconds" f then s.dropRight 3 else s
          PL.fromTimestamp s
        | none => .ok none
      else
        match date_string with
        | some s => .ok (PL.fromFormat s f)
        | none => .ok none
    else
      match date_string with
      | some s => .ok (PL.parseIso s)
      | none => .ok none
  | none =>
    match date_string with
    | some s => .ok (PL.parseIso s)
    | none => .ok none

/-- The separators recognized by the 2-digit-year widening of
`arrow_datetime_extract` (line 149). -/
def arrowSeparators : List Char := ['-', '/', '.']

/-- Python `f[2]`: `IndexError` when the string is shorter than 3. -/
def pyCharAt2 (f : String) : Except PyErr Char :=
  match f.data.get? 2 with
  | some c => .ok c
  | none => .error .indexError

/-- Python `f[-3]`: `IndexError` when the string is shorter than 3. -/
def pyCharAtNeg3 (f : String) : Except PyErr Char :=
  if 3 ≤ f.data.length then
    match f.data.get? (f.data.length - 3) with
    | some c => .ok c
    | none => .error .indexError
  else .error .indexError

/-- The guard `date_format[:2] == 'YY' and date_format[2] in
arrow_separators` (line 150).  Left-to-right evaluation: the indexing (and
hence its possible `IndexError`) only happens when the slice comparison
succeeds. -/
def widenGuardFront (f : String) : Except PyErr Bool :=
  if f.data.take 2 = ['Y', 'Y'] then
    (pyCharAt2 f).map (fun c => decide (c ∈ arrowSeparators))
  else .ok false

/-- The guard `date_format[-2:] == 'YY' and date_format[-3] in
arrow_separators` (line 152), same evaluation order. -/
def widenGuardBack (f : String) : Except PyErr Bool :=
  if f.data.drop (f.data.length - 2) = ['Y', 'Y'] then
    (pyCharAtNeg3 f).map (fun c => decide (c ∈ arrowSeparators))
  else .ok false

/-- `"YY{}".format(f)` — widen a leading 2-digit year. -/
def widenFront (f : String) : String := "YY" ++ f

/-- `"{}YY".format(f)` — widen a trailing 2-digit year. -/
def widenBack (f : String) : String := f ++ "YY"

/-- The final plain arrow call of `arrow_datetime_extract` (lines 155-164):
`arrow.get(date_string, date_format)` when a truthy format is present,
otherwise `arrow.get(date_string)`; all caught failures fold to `None`. -/
def arrowFinalGet {DT : Type} (AL : ArrowLib DT)
    (date_string : Option String) (date_format : Option String) : Option DT :=
  match date_string with
  | none => none
  | some s =>
    match date_format with
    | some f => if f ≠ "" then AL.getWithFormat s f else AL.get s
    | none => AL.get s

/-- Embedding of `arrow_datetime_extract` (lines 142-165) with explicit
fuel for its recursion (the development proves fuel ≥ 3 always suffices).
Mirrors the source exactly: the back-edge guard is only evaluated when the
front widening produced no value, and the plain `arrow.get` only runs when
neither widening produced a value.  Guard `IndexError`s escape the
function, as in the source (they are outside every try block). -/
def arrow_datetime_extract {DT : Type} (AL : ArrowLib DT) :
    Nat → Option String → Option String → Except PyErr (Option DT)
  | 0, _, _ => .error .fuelOut
  | fuel + 1, date_string, date_format => do
    let widened : Option DT ←
      match date_format with
      | some f =>
        if f ≠ "" then do
          let g1 ← widenGuardFront f
          let dtF : Option DT ←
            if g1 then arrow_datetime_extract AL fuel date_string (some (widenFront f))
            else pure none
          if dtF.isNone then do
            let g2 ← widenGuardBack f
            if g2 then arrow_datetime_extract AL fuel date_string (some (widenBack f))
            else pure none
          else pure dtF
        else pure none
      | none => pure none
    if widened.isNone then
      pure (arrowFinalGet AL date_string date_format)
    else pure widened

/-- The fuel `extract_datetime_string` hands to `arrow_datetime_extract`;
any value ≥ 3 computes the recursion (see the termination theorem). -/
def arrowFuel : Nat := 4

/-- Embedding of `extract_datetime_string` (lines 104-121): pendulum first,
arrow only when pendulum produced no value, then ISO-8601 re-export (with
UTC offset when `timezone` is set), `None` when both strategies failed;
an uncaught exception from either stage propagates out of the call. -/
def extract_datetime_string {DT : Type} (PL : PendulumLib DT) (AL : ArrowLib DT)
    (F : DTFormatter DT) (date_string : Option String) (date_format : Option String)
    (timezone : Bool) : Except PyErr (Option String) := do
  let first ← pendulum_datetime_extract PL date_string date_format
  let datetime ←
    if first.isNone then arrow_datetime_extract AL arrowFuel date_string date_format
    else pure first
  match datetime with
  | some dt => pure (some (if timezone then F.fmtWithOffset dt else F.fmt dt))
  | none => pure none

/-! ### Article assembler (extractors.py lines 168-244)

A Python dict key that may be absent is an `Option` field (`none` = key
absent, `some v` = key present with value `v`); Python `None` stored under
a present key is `some .null`. -/

/-- A value stored in an article field: Python `None`, a string, a list of
strings (from the `all` match rule), a value produced by the external
ReadabiliPy collaborator (abstract type `PT`), a metadata sub-dict of
selector-engine results, or a crawl-info value (abstract type `CV`). -/
inductive AVal (PT CV : Type) where
  | null : AVal PT CV
  | str (s : String) : AVal PT CV
  | strList (xs : List String) : AVal PT CV
  | ext (x : PT) : AVal PT CV
  | mdict (m : List (String × ElemResult)) : AVal PT CV
  | crawl (c : CV) : AVal PT CV

/-- Conversion of a selector-engine result into a stored article value
(the plain Python assignment `article[field] = extract_element(...)`). -/
def elemToAVal {PT CV : Type} : ElemResult → AVal PT CV
  | .none => .null
  | .str s => .str s
  | .list xs => .strList xs

/-- Conversion of a selector-engine result into the `date_string` argument
of `extract_datetime_string`: a string stays a string; `None` is `None`;
a list behaves exactly like `None` there (see the datetime section). -/
def elemToDateString : ElemResult → Option String
  | .str s => some s
  | _ => none

/-- The scrapy `Article` item under construction: each field is a dict key
that may be absent (`none`) or present (`some value`). -/
structure PyArticle (PT CV : Type) where
  site_name : Option (AVal PT CV)
  article_url : Option (AVal PT CV)
  title : Option (AVal PT CV)
  byline : Option (AVal PT CV)
  publication_datetime : Option (AVal PT CV)
  content : Option (AVal PT CV)
  plain_content : Option (AVal PT CV)
  plain_text : Option (AVal PT CV)
  metadata : Option (AVal PT CV)
  crawl_id : Option (AVal PT CV)
  crawl_datetime : Option (AVal PT CV)

/-- The freshly created `Article()` with no keys set. -/
def PyArticle.empty {PT CV : Type} : PyArticle PT CV :=
  ⟨none, none, none, none, none, none, none, none, none, none, none⟩

/-- The record returned by the black-box ReadabiliPy collaborator
`parse_to_json`. -/
structure RBResult (PT CV : Type) where
  title : AVal PT CV
  byline : AVal PT CV
  content : AVal PT CV
  plain_content : AVal PT CV
  plain_text : AVal PT CV

/-- The black-box collaborator `parse_to_json(html, content_digests,
node_indexes, False)`; it receives exactly the value the code passes
(which in the default path may be Python `None` when `"/html"` matched
nothing). -/
structure RBLib (PT CV : Type) where
  parse_to_json : ElemResult → Bool → Bool → RBResult PT CV

/-- The `article` section of a site config: the four optional field specs. -/
structure ArticleConfig where
  title : Option ExtractSpec
  byline : Option ExtractSpec
  publication_datetime : Option ExtractSpec
  content : Option ExtractSpec

/-- A site config: `site_name` (mandatory lookup), optional `article`
section, optional `metadata` section (ordered field-name/spec pairs). -/
structure SiteConfig where
  site_name : String
  article : Option ArticleConfig
  metadata : Option (List (String × ExtractSpec))

/-- The optional `crawl_info` argument (`crawl_id` / `crawl_datetime`). -/
structure CrawlInfo (CV : Type) where
  crawl_id : CV
  crawl_datetime : CV

/-- Embedding of `extract_article` (extractors.py lines 168-244).  The final
"ensure all fields included" pass is translated line by line; note that
the source's second `plain_content` presence test (line 239) is what the
source actually executes — it re-checks `'plain_content' not in article`
before assigning `article['plain_text'] = None`, so `plain_text` is never
defaulted.  The call can raise (`Except.error`) because
`extract_datetime_string` can raise an uncaught `IndexError` on a
degenerate `datetime-format` config value. -/
def extract_article {DT PT CV : Type} (RB : RBLib PT CV) (PL : PendulumLib DT)
    (AL : ArrowLib DT) (F : DTFormatter DT) (response : Response)
    (config : SiteConfig) (crawl_info : Option (CrawlInfo CV))
    (content_digests node_indexes : Bool) :
    Except PyErr (PyArticle PT CV) := do
  let article : PyArticle PT CV := PyArticle.empty
  let article := { article with site_name := some (.str config.site_name) }
  let article := { article with article_url := some (.str response.url) }
  -- Set default article fields by running readability on full page HTML
  let page_spec := xpath_extract_spec "/html" "largest" true
  let page_html := extract_element response page_spec
  -- Look for a set of extraction specifications
  let article ←
    match config.article with
    | some ac => do
      let article :=
        match ac.title with
        | some spec => { article with title := some (elemToAVal (extract_element response spec)) }
        | none => article
      let article :=
        match ac.byline with
        | some spec => { article with byline := some (elemToAVal (extract_element response spec)) }
        | none => article
      let article ←
        match ac.publication_datetime with
        | some spec => do
          let datetime_string := extract_element response spec
          let iso_string ←
            extract_datetime_string PL AL F (elemToDateString datetime_string)
              spec.datetime_format false
          pure { article with
                 publication_datetime :=
                   some (match iso_string with | some s => .str s | none => .null) }
        | none => pure article
      match ac.content with
      | some spec =>
        let article_html := extract_element response spec
        if article_html ≠ .none then
          let custom := RB.parse_to_json article_html content_digests node_indexes
          pure { article with
                 content := some custom.content
                 plain_content := some custom.plain_content
                 plain_text := some custom.plain_text }
        else pure article
      | none => pure article
    | none =>
      -- ... otherwise simply use the default values from parsing the whole page
      let dflt := RB.parse_to_json page_html content_digests node_indexes
      pure { article with
             title := some dflt.title
             byline := some dflt.byline
             content := some dflt.content
             plain_content := some dflt.plain_content
             plain_text := some dflt.plain_text }
  -- Extract additional article metadata
  let article :=
    match config.metadata with
    | some fields =>
      { article with
        metadata :=
          some (.mdict (fields.map
            (fun (p : String × ExtractSpec) => (p.1, extract_element response p.2)))) }
    | none => article
  -- Add crawl information if provided
  let article :=
    match crawl_info with
    | some ci =>
      { article with
        crawl_id := some (.crawl ci.crawl_id)
        crawl_datetime := some (.crawl ci.crawl_datetime) }
    | none => article
  -- Ensure all fields included in article even if no data extracted for them
  let article := if article.title.isNone then { article with title := some .null } else article
  let article := if article.byline.isNone then { article with byline := some .null } else article
  let article :=
    if article.publication_datetime.isNone then
      { article with publication_datetime := some .null }
    else article
  let article := if article.content.isNone then { article with content := some .null } else article
  let article :=
    if article.plain_content.isNone then { article with plain_content := some .null } else article
  -- line 239 of the source re-tests 'plain_content', not 'plain_text':
  let article :=
    if article.plain_content.isNone then { article with plain_text := some .null } else article
  let article := if article.metadata.isNone then { article with metadata := some .null } else article
  pure article

/-! ### CloudFlareMiddleware (middlewares/cloudflaremiddleware.py) -/

namespace CloudFlare

/-- The parts of a scrapy response read by the middleware; `serverHeader`
models `response.headers.get('Server', '')` sources (`none` = header
absent; scrapy normalizes the `''` default to empty bytes, so an absent
header compares as the empty string). -/
structure CFResponse where
  status : Nat
  serverHeader : Option String
  text : String
  url : String

/-- The parts of a scrapy request the middleware touches. -/
structure CFRequest where
  url : String
  cookies : List (String × String)
  priority : Int

/-- Python `dict.update`: existing keys are overwritten in place, new keys
are appended in update order. -/
def pyDictUpdate (d u : List (String × String)) : List (String × String) :=
  d.map (fun kv => match u.lookup kv.1 with | some v => (kv.1, v) | none => kv) ++
    u.filter (fun kv => (d.lookup kv.1).isNone)

/-- Embedding of `CloudFlareMiddleware.is_cloudflare` (lines 8-17): all
four conditions, evaluated left to right with short-circuit `and`. -/
def is_cloudflare (response : CFResponse) : Bool :=
  response.status == 503 &&
    pyStartsWith (response.serverHeader.getD "") "cloudflare" &&
    pyIn "jschl_vc" response.text &&
    pyIn "jschl_answer" response.text

/-- What `CloudFlareMiddleware.process_response` returns: the untouched
response, or the mutated request. -/
inductive CFResult where
  | response (r : CFResponse) : CFResult
  | request (r : CFRequest) : CFResult

/-- Embedding of `CloudFlareMiddleware.process_response` (lines 19-34);
`get_tokens` is the external cfscrape collaborator. -/
def process_response (get_tokens : String → List (String × String))
    (request : CFRequest) (response : CFResponse) : CFResult :=
  if !is_cloudflare response then .response response
  else
    .request { request with
               cookies := pyDictUpdate request.cookies (get_tokens request.url)
               priority := 99999 }

end CloudFlare

/-! ### ButtonPressMiddleware (middlewares/buttonpressmiddleware.py) -/

namespace ButtonPress

/-- The form-button XPath locators (lines 57-63), in priority order. -/
def form_button_xpaths : List String :=
  ["//input[contains(@class, \"agree\")]",
   "//button[@name=\"agree\"]",
   "//button[@class=\"qc-cmp-button\"]",
   "//form[@class=\"gdpr-form\"]/input[@class=\"btn\"]",
   "//button[contains(@class, \"gdpr-modal-close\")]"]

/-- The load-button XPath locators (lines 64-77), in priority order. -/
def load_button_xpaths : List String :=
  ["//a[@class=\"load-more\"]",
   "//a[contains(@class, \"m-more\")]",
   "//button[@class=\"btn-more\"]",
   "//button[text()=\"Show More\"]",
   "//button[text()=\"Load More\"]",
   "//button[contains(@class, \"show-more\")]",
   "//button[@phx-track-id=\"load more\"]",
   "//div[contains(@class, \"load-btn\")]/a",
   "//div[contains(@class, \"button-load-more\")]",
   "//div[contains(@class, \"pb-loadmore\")]",
   "//ul[contains(@class, \"pager-load-more\")]/li/a",
   "//a[text()=\"Show More\"]"]

/-- Embedding of `response_contains_a_button` (lines 89-94): a static XPath
check against the already-fetched scrapy response, iterating
`load_buttons + form_buttons`; a nonempty selector list is truthy. -/
def response_contains_a_button (response : Response) : Bool :=
  (load_button_xpaths ++ form_button_xpaths).any
    (fun xp => !(response.xpath xp).isEmpty)

/-- The part of a scrapy request the guard logic reads. -/
structure BPRequest where
  url : String

/-- One operation against the live selenium browser session. -/
inductive SessionOp where
  | get (url : String) : SessionOp
  | other (tag : String) : SessionOp

/-- The outcome of the post-guard selenium automation (source lines
196-216: `press_form_buttons`, the load-button pressing loop,
`driver.page_source`, `driver.get_cookies`).  Its behavior depends
entirely on the live browser session, an external collaborator, so it is
abstracted: `ops` is the list of session operations it performs and
`finalBody` the page source it produces. -/
structure AutoOutcome where
  ops : List SessionOp
  finalBody : String

/-- The abstracted post-guard automation collaborator. -/
structure AutoLib where
  run : String → Response → AutoOutcome

/-- What `process_response` returns: the original response object, or a
fresh `HtmlResponse` built from the final page source. -/
inductive BPResult where
  | original (r : Response) : BPResult
  | newResponse (body : String) (url : String) : BPResult

/-- Embedding of `ButtonPressMiddleware.process_response` (lines 177-217).
Returns the result, the updated `seen_urls` set, and the trace of
operations issued to the browser session.  The two guards (session-scoped
URL dedup, then the static button check) return the original response
without touching the browser; otherwise `driver.get` runs followed by the
abstracted automation. -/
def process_response (auto : AutoLib) (seen_urls : List String)
    (request : BPRequest) (response : Response) :
    BPResult × List String × List SessionOp :=
  if request.url ∈ seen_urls then (.original response, seen_urls, [])
  else
    let seen_urls := request.url :: seen_urls
    if !response_contains_a_button response then (.original response, seen_urls, [])
    else
      let outcome := auto.run request.url response
      (.newResponse outcome.finalBody request.url, seen_urls,
        .get request.url :: outcome.ops)

end ButtonPress

/-! ### Shared concrete instantiations used by witnesses and evaluations -/

/-- Pendulum collaborator all of whose calls fail with caught exceptions
(as on unparseable input). -/
def trivialPL : PendulumLib Unit :=
  ⟨fun _ => none, fun _ _ => none, fun _ => .ok none⟩

/-- Arrow collaborator all of whose calls fail. -/
def trivialAL : ArrowLib Unit := ⟨fun _ => none, fun _ _ => none⟩

/-- A formatter for the trivial datetime type. -/
def trivialF : DTFormatter Unit := ⟨fun _ => "F", fun _ => "FZ"⟩

/-- Pendulum collaborator whose ISO parse succeeds. -/
def isoPL : PendulumLib Unit :=
  ⟨fun _ => some (), fun _ _ => none, fun _ => .ok none⟩

/-- Pendulum collaborator modelling the real library at an out-of-range
epoch value such as `int('100000000000000000000')`:
`pendulum.from_timestamp` raises `OverflowError`. -/
def overflowPL : PendulumLib Unit :=
  ⟨fun _ => none, fun _ _ => none, fun _ => .error .overflowError⟩

/-- ReadabiliPy collaborator returning all-null fields. -/
def trivialRB : RBLib Unit Unit := ⟨fun _ _ _ => ⟨.null, .null, .null, .null, .null⟩⟩

/-! ### Theorems -/

lemma normalizeEmpty_ne_empty_str (x : ElemResult) : normalizeEmpty x ≠ .str "" := by
  cases x with
  | str s =>
    simp only [normalizeEmpty]
    split
    · simp
    · simpa using fun h => by simp_all
  | none => simp [normalizeEmpty]
  | list xs => simp [normalizeEmpty]

/-- C7: for every response and every extract spec, `extract_element` never
returns the empty string as a found result; the final normalization step
(`if elements == "": return None`, lines 98-101) turns an empty-string
scalar into `None` on every code path. -/
theorem extract_element_never_empty_string (response : Response)
    (extract_spec : ExtractSpec) :
    extract_element response extract_spec ≠ ElemResult.str "" :=
  normalizeEmpty_ne_empty_str _

/-- The selector matches of the repository test
`test_extract_datetime_works_with_multiple_dates`. -/
def multiDateMatches : List String :=
  ["October 22, 2018", "Article text here.", "May 15, 2006"]

/-- C4 evaluation: `extract_element` has no `comma_join` branch, so a
`comma_join` spec falls into the unrecognized-match-rule branch and yields
`None`, while the same spec with `concatenate` yields the `", "`-join of
the matches.  The matches are those of the repository's own test
`test_extract_datetime_works_with_multiple_dates`, which configures
`match_rule: 'comma_join'` and expects the joined value to reach the
datetime normalizer. -/
theorem comma_join_is_unrecognized :
    extract_element ⟨"http://example.com", fun _ => multiDateMatches⟩
        ⟨"xpath", "//div/p/text()", some "comma_join", none, none⟩ = .none ∧
      extract_element ⟨"http://example.com", fun _ => multiDateMatches⟩
        ⟨"xpath", "//div/p/text()", some "concatenate", none, none⟩ =
        .str "October 22, 2018, Article text here., May 15, 2006" := by
  exact ⟨rfl, rfl⟩

/-- The `extract_article` call on a config whose `article` section declares
no fields (so neither extraction path populates `title`, `byline`,
`publication_datetime`, `content`, `plain_content` or `plain_text`),
against a response whose selectors match nothing. -/
def emptySectionArticle : Except PyErr (PyArticle Unit Unit) :=
  extract_article trivialRB trivialPL trivialAL trivialF
    ⟨"http://example.com", fun _ => []⟩
    ⟨"example.com", some ⟨none, none, none, none⟩, none⟩ none false false

/-- C1 evaluation: on a config with an `article` section that populates no
field, the returned Article does contain eight of the nine schema keys
with null values, but the `plain_text` key is ABSENT: the source's final
default pass re-tests `'plain_content' not in article` (line 239, a slip
for `'plain_text'`), and since line 238 has just ensured `plain_content`
is present, `plain_text` is never defaulted.  This contradicts the
invariant claimed by the spec and by the source's own comment at line 228
("Ensure all fields included in article even if no data extracted"). -/
theorem extract_article_drops_plain_text :
    emptySectionArticle.map (fun a => a.plain_text) = .ok none ∧
      emptySectionArticle.map
          (fun a =>
            (a.site_name, a.article_url, a.title, a.byline, a.publication_datetime,
              a.content, a.plain_content, a.metadata)) =
        .ok (some (.str "example.com"), some (.str "http://example.com"), some .null,
          some .null, some .null, some .null, some .null, some .null) :=
  ⟨rfl, rfl⟩

/-- C10: `CloudFlareMiddleware.process_response` returns the original
response object whenever any of the four CloudFlare-detection conditions
fails (status 503, `Server` header starting with `cloudflare`, and the two
challenge tokens in the body text), and returns the cookie-augmented,
priority-99999 request exactly when all four hold. -/
theorem cloudflare_process_response_cases
    (get_tokens : String → List (String × String))
    (request : CloudFlare.CFRequest) (response : CloudFlare.CFResponse) :
    (¬(response.status = 503 ∧
          pyStartsWith (response.serverHeader.getD "") "cloudflare" = true ∧
          pyIn "jschl_vc" response.text = true ∧
          pyIn "jschl_answer" response.text = true) →
        CloudFlare.process_response get_tokens request response = .response response) ∧
      ((response.status = 503 ∧
          pyStartsWith (response.serverHeader.getD "") "cloudflare" = true ∧
          pyIn "jschl_vc" response.text = true ∧
          pyIn "jschl_answer" response.text = true) →
        CloudFlare.process_response get_tokens request response =
          .request { request with
                     cookies := CloudFlare.pyDictUpdate request.cookies (get_tokens request.url)
                     priority := 99999 }) := by
  have hiff : CloudFlare.is_cloudflare response = true ↔
      (response.status = 503 ∧
        pyStartsWith (response.serverHeader.getD "") "cloudflare" = true ∧
        pyIn "jschl_vc" response.text = true ∧
        pyIn "jschl_answer" response.text = true) := by
    simp [CloudFlare.is_cloudflare, Bool.and_eq_true, beq_iff_eq, and_assoc]
  constructor
  · intro h
    have hb : CloudFlare.is_cloudflare response = false := by
      rcases Bool.eq_false_or_eq_true (CloudFlare.is_cloudflare response) with hb | hb
      · exact absurd (hiff.mp hb) h
      · exact hb
    simp [CloudFlare.process_response, hb]
  · intro h
    have hb : CloudFlare.is_cloudflare response = true := hiff.mpr h
    simp [CloudFlare.process_response, hb]

/-- Witness for C10 at a concrete CloudFlare challenge response: all four
conditions hold, so the middleware returns the mutated request. -/
theorem cloudflare_process_response_cases_witness :
    CloudFlare.process_response (fun _ => [("cf_clearance", "tok")]) ⟨"u", [], 0⟩
        ⟨503, some "cloudflare-nginx", "x jschl_vc y jschl_answer z", "u"⟩ =
      .request ⟨"u", [("cf_clearance", "tok")], 99999⟩ :=
  (cloudflare_process_response_cases (fun _ => [("cf_clearance", "tok")]) ⟨"u", [], 0⟩
      ⟨503, some "cloudflare-nginx", "x jschl_vc y jschl_answer z", "u"⟩).2
    ⟨rfl, by decide, by decide, by decide⟩

/-- C8: whenever the request URL was already processed in this session, or
the static XPath check finds none of the known form- or load-button
locators in the already-fetched document, `ButtonPressMiddleware.
process_response` returns the original response object and issues no
operation to the browser session. -/
theorem buttonpress_guard_frame (auto : ButtonPress.AutoLib)
    (seen_urls : List String) (request : ButtonPress.BPRequest) (response : Response)
    (h : request.url ∈ seen_urls ∨ ButtonPress.response_contains_a_button response = false) :
    (ButtonPress.process_response auto seen_urls request response).1 = .original response ∧
      (ButtonPress.process_response auto seen_urls request response).2.2 = [] := by
  by_cases hseen : request.url ∈ seen_urls
  · simp [ButtonPress.process_response, hseen]
  · rcases h with hs | hb
    · exact absurd hs hseen
    · simp [ButtonPress.process_response, hseen, hb]

/-- Witness for C8 on both guards: a URL already in the session set, and a
separate page with no button locator. -/
theorem buttonpress_guard_frame_witness :
    (ButtonPress.process_response ⟨fun _ _ => ⟨[.other "press"], "body"⟩⟩ ["http://u"] ⟨"http://u"⟩
          ⟨"http://u", fun _ => ["match"]⟩).1 =
        .original ⟨"http://u", fun _ => ["match"]⟩ ∧
      (ButtonPress.process_response ⟨fun _ _ => ⟨[.other "press"], "body"⟩⟩ ["http://u"] ⟨"http://u"⟩
          ⟨"http://u", fun _ => ["match"]⟩).2.2 = [] :=
  buttonpress_guard_frame ⟨fun _ _ => ⟨[.other "press"], "body"⟩⟩ ["http://u"] ⟨"http://u"⟩
    ⟨"http://u", fun _ => ["match"]⟩ (Or.inl (by decide))

/-- C6 counterexample: a `single` spec with `warn_if_missing: false` and
two matches whose first trims to the empty string.  The claim as stated
predicts the result `("", one warning)`; the code returns `None` (the
empty-string normalization) and, because the warning at line 61 is guarded
by `warn_if_missing`, zero warnings. -/
theorem single_rule_counterexample :
    extract_element_full ⟨"http://example.com", fun _ => [" ", "x"]⟩
        ⟨"xpath", "//p/text()", some "single", some false, none⟩ = (.none, 0) ∧
      extract_element_full ⟨"http://example.com", fun _ => [" ", "x"]⟩
          ⟨"xpath", "//p/text()", some "single", some false, none⟩ ≠ (.str "", 1) := by
  refine ⟨rfl, ?_⟩
  decide

/-- C6 (amended): with match rule `single` (explicit or defaulted), exactly
one match returns that trimmed match (normalized to `None` if it is empty)
with no warning; more than one match returns the first trimmed match
(likewise normalized) and emits exactly one warning when warnings are not
suppressed (`warn_if_missing` true, the default) and none when they are. -/
theorem single_rule_amended (response : Response) (extract_spec : ExtractSpec)
    (hmethod : extract_spec.select_method = "xpath")
    (hrule : extract_spec.match_rule.getD "single" = "single") :
    (∀ e, (response.xpath extract_spec.select_expression).map (fun item => pyStrip item) = [e] →
        extract_element_full response extract_spec = (normalizeEmpty (.str e), 0)) ∧
      (∀ e e₂ es,
        (response.xpath extract_spec.select_expression).map (fun item => pyStrip item) =
            e :: e₂ :: es →
          extract_element_full response extract_spec =
            (normalizeEmpty (.str e),
              if extract_spec.warn_if_missing.getD true then 1 else 0)) := by
  constructor
  · intro e h
    simp [extract_element_full, hmethod, hrule, h]
  · intro e e₂ es h
    simp only [extract_element_full, hmethod, hrule, h, if_true, if_pos rfl]
    have hlen : ((e :: e₂ :: es).length != 1) = true := by
      simp [List.length_cons, bne_iff_ne]
    rw [hlen]
    cases hw : extract_spec.warn_if_missing.getD true <;> simp

/-- Witness for C6 (amended) at one match and at two matches with default
warning behavior. -/
theorem single_rule_amended_witness :
    extract_element_full ⟨"http://e", fun _ => ["a"]⟩
        ⟨"xpath", "//p", some "single", none, none⟩ = (normalizeEmpty (.str "a"), 0) ∧
      extract_element_full ⟨"http://e", fun _ => ["a", "b"]⟩
          ⟨"xpath", "//p", some "single", none, none⟩ =
        (normalizeEmpty (.str "a"), if (Option.none : Option Bool).getD true then 1 else 0) :=
  ⟨(single_rule_amended ⟨"http://e", fun _ => ["a"]⟩
        ⟨"xpath", "//p", some "single", none, none⟩ rfl rfl).1 "a" rfl,
    (single_rule_amended ⟨"http://e", fun _ => ["a", "b"]⟩
        ⟨"xpath", "//p", some "single", none, none⟩ rfl rfl).2 "a" "b" [] rfl⟩

/-- C5: the datetime normalizer tries the strict pendulum parser first and
consults the lenient arrow extractor only when pendulum produced no value:
when pendulum succeeds the output is its value re-exported in ISO form and
is independent of the arrow collaborator entirely; when pendulum fails the
output is exactly the arrow result re-exported (so `None` when both
strategies fail); and any uncaught exception of either stage propagates. -/
theorem datetime_strategy_priority {DT : Type} (PL : PendulumLib DT)
    (AL AL' : ArrowLib DT) (F : DTFormatter DT) (date_string date_format : Option String)
    (timezone : Bool) :
    (∀ dt, pendulum_datetime_extract PL date_string date_format = .ok (some dt) →
        extract_datetime_string PL AL F date_string date_format timezone =
            .ok (some (if timezone then F.fmtWithOffset dt else F.fmt dt)) ∧
          extract_datetime_string PL AL F date_string date_format timezone =
            extract_datetime_string PL AL' F date_string date_format timezone) ∧
      (pendulum_datetime_extract PL date_string date_format = .ok none →
        extract_datetime_string PL AL F date_string date_format timezone =
          (arrow_datetime_extract AL arrowFuel date_string date_format).map
            (fun o => o.map (fun dt => if timezone then F.fmtWithOffset dt else F.fmt dt))) ∧
      (∀ e, pendulum_datetime_extract PL date_string date_format = .error e →
        extract_datetime_string PL AL F date_string date_format timezone = .error e) := by
  refine ⟨?_, ?_, ?_⟩
  · intro dt h
    constructor <;>
      simp [extract_datetime_string, h, pure, Except.pure, bind, Except.bind]
  · intro h
    simp only [extract_datetime_string, h, Option.isNone_none, if_true, if_pos rfl,
      bind, Except.bind]
    cases harrow : arrow_datetime_extract AL arrowFuel date_string date_format with
    | error e => simp [Except.map, Except.bind, bind, harrow]
    | ok o => cases o <;> simp [Except.map, Except.bind, bind, harrow, pure, Except.pure]
  · intro e h
    simp [extract_datetime_string, h, bind, Except.bind]

/-- Witness for C5: a pendulum ISO-parse success is re-exported without
consulting arrow. -/
theorem datetime_strategy_priority_witness :
    pendulum_datetime_extract isoPL (some "2014-10-24") none = .ok (some ()) ∧
      extract_datetime_string isoPL trivialAL trivialF (some "2014-10-24") none false =
        .ok (some "F") :=
  ⟨rfl,
    ((datetime_strategy_priority isoPL trivialAL trivialAL trivialF (some "2014-10-24") none
          false).1 () rfl).1⟩

/-- The element that `sorted(elements, key=len)[-1]` actually selects from
`x :: xs`: the maximum-length element, with ties going to the LAST
occurrence (Python `sorted` is stable and ascending, and `[-1]` takes the
final position). -/
def lastMax (x : String) : List String → String
  | [] => x
  | y :: ys => if x.length ≤ (lastMax y ys).length then lastMax y ys else x

lemma orderedInsert_getLast? (x : String) :
    ∀ s : List String, List.Sorted lenLe s →
      (List.orderedInsert lenLe x s).getLast? =
        some (match s.getLast? with
              | none => x
              | some z => if x.length ≤ z.length then z else x) := by
  intro s
  induction s with
  | nil => intro _; rfl
  | cons b t IH =>
    intro hsorted
    have hsorted' : List.Sorted lenLe t := hsorted.of_cons
    have hble : ∀ y ∈ t, lenLe b y := (List.sorted_cons.mp hsorted).1
    by_cases hxb : lenLe x b
    · rw [List.orderedInsert, if_pos hxb]
      rw [List.getLast?_cons_cons]
      cases t with
      | nil =>
        have : x.length ≤ b.length := hxb
        simp [this]
      | cons c t' =>
        have hz : ∃ z, (b :: c :: t').getLast? = some z := by
          cases hgl : (b :: c :: t').getLast? with
          | none => simp [List.getLast?] at hgl
          | some z => exact ⟨z, rfl⟩
        obtain ⟨z, hz⟩ := hz
        have hzmem : z ∈ b :: c :: t' := List.mem_of_getLast?_eq_some hz
        have hbz : lenLe b z := by
          rcases List.mem_cons.mp hzmem with h | h
          · subst h; exact le_refl _
          · exact hble z h
        have hxz : x.length ≤ z.length := le_trans hxb hbz
        rw [hz]
        simp [hxz]
    · rw [List.orderedInsert, if_neg hxb]
      have hne : List.orderedInsert lenLe x t ≠ [] := by
        intro hnil
        have := congrArg List.length hnil
        rw [List.orderedInsert_length] at this
        simp at this
      cases hoi : List.orderedInsert lenLe x t with
      | nil => exact absurd hoi hne
      | cons w ws =>
        rw [List.getLast?_cons_cons, ← hoi, IH hsorted']
        cases t with
        | nil =>
          have : ¬ x.length ≤ b.length := hxb
          simp [this]
        | cons c t' =>
          rw [List.getLast?_cons_cons]

lemma insertionSort_getLast? (x : String) (xs : List String) :
    (List.insertionSort lenLe (x :: xs)).getLast? = some (lastMax x xs) := by
  induction xs generalizing x with
  | nil => rfl
  | cons y ys IH =>
    rw [List.insertionSort]
    rw [orderedInsert_getLast? x _ (List.sorted_insertionSort lenLe (y :: ys))]
    rw [IH y]
    simp [lastMax]

lemma lastMax_mem (x : String) (xs : List String) : lastMax x xs ∈ x :: xs := by
  induction xs generalizing x with
  | nil => simp [lastMax]
  | cons y ys IH =>
    rw [lastMax]
    split
    · exact List.mem_cons_of_mem x (IH y)
    · exact List.mem_cons_self x (y :: ys)

lemma lastMax_le (x : String) (xs : List String) :
    ∀ z ∈ x :: xs, z.length ≤ (lastMax x xs).length := by
  induction xs generalizing x with
  | nil => simp [lastMax]
  | cons y ys IH =>
    intro z hz
    rw [lastMax]
    rcases List.mem_cons.mp hz with h | h
    · subst h
      split
      · assumption
      · exact le_refl _
    · have hle := IH y z h
      split
      · exact hle
      · exact le_trans hle (le_of_not_le (by assumption))

lemma lastMax_filter_getLast? (x : String) (xs : List String) :
    ((x :: xs).filter (fun y => y.length == (lastMax x xs).length)).getLast? =
      some (lastMax x xs) := by
  induction xs generalizing x with
  | nil => simp [lastMax, List.filter]
  | cons y ys IH =>
    rw [lastMax]
    split
    · -- the running maximum of the tail wins: the head is just prepended (or not)
      have hrest := IH y
      have hne : (y :: ys).filter
          (fun z => z.length == (lastMax y ys).length) ≠ [] := by
        intro hnil
        rw [hnil] at hrest
        simp at hrest
      rw [List.filter_cons]
      split
      · obtain ⟨w, ws, hflt⟩ := List.exists_cons_of_ne_nil hne
        rw [hflt, List.getLast?_cons_cons]
        rw [hflt] at hrest
        exact hrest
      · exact hrest
    · -- the head is strictly longest: nothing in the tail passes the filter
      have hlt : ∀ z ∈ y :: ys, z.length < x.length := by
        intro z hz
        exact lt_of_le_of_lt (lastMax_le y ys z hz) (lt_of_not_le (by assumption))
      have hnil : (y :: ys).filter (fun z => z.length == x.length) = [] := by
        rw [List.filter_eq_nil_iff]
        intro z hz
        simp only [beq_iff_eq]
        exact ne_of_lt (hlt z hz)
      rw [List.filter_cons]
      simp only [beq_self_eq_true, if_true, hnil]
      rfl

/-- C3 counterexample: two matches tied for the greatest length.  The claim
as stated says the tie goes to the first occurrence (`"aa"`); the code
computes `sorted(elements, key=len)[-1]`, and since Python's sort is
stable and ascending, the LAST position holds the last tied maximum, so it
returns `"bb"`. -/
theorem largest_rule_counterexample :
    extract_element ⟨"http://example.com", fun _ => ["aa", "bb"]⟩
        ⟨"xpath", "//p/text()", some "largest", none, none⟩ = .str "bb" ∧
      extract_element ⟨"http://example.com", fun _ => ["aa", "bb"]⟩
          ⟨"xpath", "//p/text()", some "largest", none, none⟩ ≠ .str "aa" := by
  refine ⟨rfl, ?_⟩
  decide

/-- C3 (amended): with match rule `largest` and at least one match, the
result is the trimmed match of greatest string length, with ties broken by
LAST occurrence (the final element of the stably sorted list), normalized
to `None` in the degenerate case where that match is the empty string. -/
theorem largest_rule_amended (response : Response) (extract_spec : ExtractSpec)
    (hmethod : extract_spec.select_method = "xpath")
    (hrule : extract_spec.match_rule.getD "single" = "largest") :
    ∀ e es,
      (response.xpath extract_spec.select_expression).map (fun item => pyStrip item) =
          e :: es →
        extract_element response extract_spec = normalizeEmpty (.str (lastMax e es)) ∧
          lastMax e es ∈ e :: es ∧
          (∀ z ∈ e :: es, z.length ≤ (lastMax e es).length) ∧
          ((e :: es).filter (fun y => y.length == (lastMax e es).length)).getLast? =
            some (lastMax e es) := by
  intro e es h
  refine ⟨?_, lastMax_mem e es, lastMax_le e es, lastMax_filter_getLast? e es⟩
  have hlast : (List.orderedInsert lenLe e (List.insertionSort lenLe es)).getLast?.getD e =
      lastMax e es := by
    have h2 := insertionSort_getLast? e es
    rw [List.insertionSort] at h2
    rw [h2]
    rfl
  simp [extract_element, extract_element_full, hmethod, hrule, h, hlast]

/-- Witness for C3 (amended) on a three-match response with a length tie. -/
theorem largest_rule_amended_witness :
    extract_element ⟨"http://e", fun _ => ["aa", "b", "cc"]⟩
        ⟨"xpath", "//p", some "largest", none, none⟩ =
      normalizeEmpty (.str (lastMax "aa" ["b", "cc"])) :=
  (largest_rule_amended ⟨"http://e", fun _ => ["aa", "b", "cc"]⟩
      ⟨"xpath", "//p", some "largest", none, none⟩ rfl rfl "aa" ["b", "cc"] rfl).1

/-! ### Guard analysis for the 2-digit-year widening recursion -/

lemma string_data_append (s t : String) : (s ++ t).data = s.data ++ t.data := by
  cases s
  cases t
  rfl

lemma data_widenFront (f : String) : (widenFront f).data = 'Y' :: 'Y' :: f.data := by
  rw [widenFront, string_data_append]
  rfl

lemma data_widenBack (f : String) : (widenBack f).data = f.data ++ ['Y', 'Y'] := by
  rw [widenBack, string_data_append]

lemma wgf_eq (f : String) :
    widenGuardFront f =
      if f.data.take 2 = ['Y', 'Y'] then
        match f.data.get? 2 with
        | some c => .ok (decide (c ∈ arrowSeparators))
        | none => .error .indexError
      else .ok false := by
  rw [widenGuardFront, pyCharAt2]
  split
  · cases f.data.get? 2 <;> rfl
  · rfl

lemma wgb_eq (f : String) :
    widenGuardBack f =
      if f.data.drop (f.data.length - 2) = ['Y', 'Y'] then
        if 3 ≤ f.data.length then
          match f.data.get? (f.data.length - 3) with
          | some c => .ok (decide (c ∈ arrowSeparators))
          | none => .error .indexError
        else .error .indexError
      else .ok false := by
  rw [widenGuardBack, pyCharAtNeg3]
  split
  · split
    · cases f.data.get? (f.data.length - 3) <;> rfl
    · rfl
  · rfl

lemma take_two_decomp {l : List Char} (h : l.take 2 = ['Y', 'Y']) :
    l = 'Y' :: 'Y' :: l.drop 2 := by
  conv_lhs => rw [← List.take_append_drop 2 l, h]
  rfl

lemma drop_two_decomp {l : List Char} (h : l.drop (l.length - 2) = ['Y', 'Y']) :
    l = l.take (l.length - 2) ++ ['Y', 'Y'] := by
  conv_lhs => rw [← List.take_append_drop (l.length - 2) l, h]

lemma length_ge_two_of_back {l : List Char} (h : l.drop (l.length - 2) = ['Y', 'Y']) :
    2 ≤ l.length := by
  have hh := congrArg List.length h
  simp only [List.length_drop, List.length_cons, List.length_nil] at hh
  omega

/-- When a format string fires the front guard, the front-widened format
does not: its third character is the `'Y'` that led the original format. -/
lemma wgf_widenFront_false (f : String) (h : f.data.take 2 = ['Y', 'Y']) :
    widenGuardFront (widenFront f) = .ok false := by
  rw [wgf_eq, data_widenFront]
  have h0 : f.data.get? 0 = some 'Y' := by rw [take_two_decomp h]; rfl
  have hget : ('Y' :: 'Y' :: f.data).get? 2 = some 'Y' := h0
  have hc : List.take 2 ('Y' :: 'Y' :: f.data) = ['Y', 'Y'] := rfl
  rw [if_pos hc, hget]
  rfl

/-- When a format string fires the back guard, the back-widened format does
not: the character three from its end is the `'Y'` that ended the original
format. -/
lemma wgb_widenBack_false (f : String)
    (h : f.data.drop (f.data.length - 2) = ['Y', 'Y']) :
    widenGuardBack (widenBack f) = .ok false := by
  have h2 : 2 ≤ f.data.length := length_ge_two_of_back h
  rw [wgb_eq, data_widenBack]
  have hlen : (f.data ++ ['Y', 'Y']).length = f.data.length + 2 := by
    simp
  have hdrop : (f.data ++ ['Y', 'Y']).drop ((f.data ++ ['Y', 'Y']).length - 2) =
      ['Y', 'Y'] := by
    rw [hlen]
    have hx : f.data.length + 2 - 2 = f.data.length := by omega
    rw [hx, List.drop_left]
  rw [if_pos hdrop, hlen]
  have h3 : 3 ≤ f.data.length + 2 := by omega
  rw [if_pos h3]
  have hidx : f.data.length + 2 - 3 = f.data.length - 1 := by omega
  have hget : (f.data ++ ['Y', 'Y']).get? (f.data.length - 1) = some 'Y' := by
    rw [List.get?_append (by omega)]
    have hx : f.data.length - 1 = (f.data.length - 2) + 1 := by omega
    rw [hx, ← List.get?_drop, h]
    rfl
  rw [hidx, hget]
  rfl

/-- Prepending `"YY"` does not change the back guard on a format of length
at least 3. -/
lemma wgb_widenFront_eq (f : String) (h3 : 3 ≤ f.data.length) :
    widenGuardBack (widenFront f) = widenGuardBack f := by
  rw [wgb_eq, wgb_eq, data_widenFront]
  have hlen : ('Y' :: 'Y' :: f.data).length = f.data.length + 2 := by simp
  have hdrop : ('Y' :: 'Y' :: f.data).drop (('Y' :: 'Y' :: f.data).length - 2) =
      f.data.drop (f.data.length - 2) := by
    rw [hlen]
    have h1 : f.data.length + 2 - 2 = (f.data.length - 2) + 2 := by omega
    rw [h1]
    rfl
  rw [hdrop, hlen]
  have hif : (3 ≤ f.data.length + 2) = (3 ≤ f.data.length) := by
    simp only [eq_iff_iff]
    omega
  have hget : ('Y' :: 'Y' :: f.data).get? (f.data.length + 2 - 3) =
      f.data.get? (f.data.length - 3) := by
    have h1 : f.data.length + 2 - 3 = (f.data.length - 3) + 2 := by omega
    rw [h1]
    rfl
  split
  · have ha : 3 ≤ f.data.length + 2 := by omega
    rw [if_pos ha, hget]
  · rfl

/-- Appending `"YY"` does not change the front guard on a format of length
at least 3. -/
lemma wgf_widenBack_eq (f : String) (h3 : 3 ≤ f.data.length) :
    widenGuardFront (widenBack f) = widenGuardFront f := by
  rw [wgf_eq, wgf_eq, data_widenBack]
  have htake : (f.data ++ ['Y', 'Y']).take 2 = f.data.take 2 :=
    List.take_append_of_le_length (by omega)
  have hget : (f.data ++ ['Y', 'Y']).get? 2 = f.data.get? 2 :=
    List.get?_append (by omega)
  rw [htake, hget]

lemma eq_yy_of_data (f : String) (h : f.data = ['Y', 'Y']) : f = "YY" := by
  cases f
  exact congrArg String.mk h

lemma wgf_short_false (f : String) (hlen : f.data.length ≤ 2) (hne : f ≠ "YY") :
    widenGuardFront f = .ok false := by
  rw [wgf_eq]
  rw [if_neg]
  intro h
  have hd : f.data = ['Y', 'Y'] := by
    rw [← List.take_of_length_le hlen]
    exact h
  exact hne (eq_yy_of_data f hd)

lemma wgb_short_false (f : String) (hlen : f.data.length ≤ 2) (hne : f ≠ "YY") :
    widenGuardBack f = .ok false := by
  rw [wgb_eq]
  rw [if_neg]
  intro h
  have h0 : f.data.length - 2 = 0 := by omega
  rw [h0, List.drop_zero] at h
  exact hne (eq_yy_of_data f h)

lemma wgf_isOk_of_len (f : String) (h3 : 3 ≤ f.data.length) :
    ∃ b, widenGuardFront f = .ok b := by
  rw [wgf_eq]
  split
  · cases hg : f.data.get? 2 with
    | none =>
      rw [List.get?_eq_none] at hg
      omega
    | some c => exact ⟨_, rfl⟩
  · exact ⟨false, rfl⟩

lemma wgb_isOk_of_len (f : String) (h3 : 3 ≤ f.data.length) :
    ∃ b, widenGuardBack f = .ok b := by
  rw [wgb_eq, if_pos h3]
  split
  · cases hg : f.data.get? (f.data.length - 3) with
    | none =>
      rw [List.get?_eq_none] at hg
      omega
    | some c => exact ⟨_, rfl⟩
  · exact ⟨false, rfl⟩

lemma wgf_true_take (f : String) (h : widenGuardFront f = .ok true) :
    f.data.take 2 = ['Y', 'Y'] := by
  rw [wgf_eq] at h
  by_contra hc
  rw [if_neg hc] at h
  exact Bool.false_ne_true (Except.ok.inj h)

lemma wgb_true_drop (f : String) (h : widenGuardBack f = .ok true) :
    f.data.drop (f.data.length - 2) = ['Y', 'Y'] := by
  rw [wgb_eq] at h
  by_contra hc
  rw [if_neg hc] at h
  exact Bool.false_ne_true (Except.ok.inj h)

lemma wgf_empty : widenGuardFront "" = .ok false := rfl

lemma wgb_empty : widenGuardBack "" = .ok false := rfl

/-- With a `None` format, `arrow_datetime_extract` makes no recursive call:
any positive fuel yields the plain `arrow.get` result. -/
lemma arrow_formatNone {DT : Type} (AL : ArrowLib DT) (s : Option String) (m : Nat) :
    arrow_datetime_extract AL (m + 1) s none = .ok (arrowFinalGet AL s none) := by
  simp [arrow_datetime_extract, bind, Except.bind, pure, Except.pure]

/-- When neither widening guard fires, `arrow_datetime_extract` makes no
recursive call: any positive fuel yields the plain `arrow.get` result. -/
lemma arrow_noWiden {DT : Type} (AL : ArrowLib DT) (s : Option String) (g : String)
    (hf : widenGuardFront g = .ok false) (hb : widenGuardBack g = .ok false) (m : Nat) :
    arrow_datetime_extract AL (m + 1) s (some g) = .ok (arrowFinalGet AL s (some g)) := by
  by_cases hg : g = ""
  · subst hg
    simp [arrow_datetime_extract, bind, Except.bind, pure, Except.pure]
  · simp [arrow_datetime_extract, hg, hf, hb, bind, Except.bind, pure, Except.pure]

/-- The computation of `arrow_datetime_extract` on format `g` has
stabilized by fuel `k`: some fixed non-exceptional result is returned at
every fuel of at least `k`. -/
def ArrowConst {DT : Type} (AL : ArrowLib DT) (s : Option String) (g : String)
    (k : Nat) : Prop :=
  ∃ o, ∀ m, k ≤ m → arrow_datetime_extract AL m s (some g) = .ok o

lemma arrowConst_noWiden {DT : Type} {AL : ArrowLib DT} {s : Option String} {g : String}
    (hf : widenGuardFront g = .ok false) (hb : widenGuardBack g = .ok false) :
    ArrowConst AL s g 1 := by
  refine ⟨arrowFinalGet AL s (some g), fun m hm => ?_⟩
  obtain ⟨m', rfl⟩ : ∃ m'', m = m'' + 1 := ⟨m - 1, by omega⟩
  exact arrow_noWiden AL s g hf hb m'

lemma ne_empty_of_wgf_true {g : String} (hf : widenGuardFront g = .ok true) : g ≠ "" := by
  intro hg
  rw [hg, wgf_empty] at hf
  exact Bool.false_ne_true (Except.ok.inj hf)

lemma ne_empty_of_wgb_true {g : String} (hb : widenGuardBack g = .ok true) : g ≠ "" := by
  intro hg
  rw [hg, wgb_empty] at hb
  exact Bool.false_ne_true (Except.ok.inj hb)

/-- One recursion layer: if both guards of `g` evaluate without exception
and every widened format a fired guard leads to has stabilized by fuel `k`,
then `g` has stabilized by fuel `k + 1`. -/
lemma arrowConst_step {DT : Type} {AL : ArrowLib DT} {s : Option String} (g : String)
    (k : Nat) (bf bb : Bool) (hf : widenGuardFront g = .ok bf)
    (hb : widenGuardBack g = .ok bb)
    (hF : bf = true → ArrowConst AL s (widenFront g) k)
    (hB : bb = true → ArrowConst AL s (widenBack g) k) :
    ArrowConst AL s g (k + 1) := by
  cases bf with
  | false =>
    cases bb with
    | false =>
      obtain ⟨o, ho⟩ := arrowConst_noWiden hf hb
      exact ⟨o, fun m hm => ho m (by omega)⟩
    | true =>
      have hg : g ≠ "" := ne_empty_of_wgb_true hb
      obtain ⟨oB, hoB⟩ := hB rfl
      refine ⟨if oB.isNone then arrowFinalGet AL s (some g) else oB, fun m hm => ?_⟩
      obtain ⟨m', rfl⟩ : ∃ m'', m = m'' + 1 := ⟨m - 1, by omega⟩
      have hcall := hoB m' (by omega)
      cases oB with
      | none =>
        simp [arrow_datetime_extract, hg, hf, hb, hcall, bind, Except.bind, pure,
          Except.pure]
      | some v =>
        simp [arrow_datetime_extract, hg, hf, hb, hcall, bind, Except.bind, pure,
          Except.pure]
  | true =>
    have hg : g ≠ "" := ne_empty_of_wgf_true hf
    obtain ⟨oF, hoF⟩ := hF rfl
    cases oF with
    | some v =>
      refine ⟨some v, fun m hm => ?_⟩
      obtain ⟨m', rfl⟩ : ∃ m'', m = m'' + 1 := ⟨m - 1, by omega⟩
      have hcall := hoF m' (by omega)
      simp [arrow_datetime_extract, hg, hf, hcall, bind, Except.bind, pure, Except.pure]
    | none =>
      cases bb with
      | false =>
        refine ⟨arrowFinalGet AL s (some g), fun m hm => ?_⟩
        obtain ⟨m', rfl⟩ : ∃ m'', m = m'' + 1 := ⟨m - 1, by omega⟩
        have hcall := hoF m' (by omega)
        simp [arrow_datetime_extract, hg, hf, hb, hcall, bind, Except.bind, pure,
          Except.pure]
      | true =>
        obtain ⟨oB, hoB⟩ := hB rfl
        refine ⟨if oB.isNone then arrowFinalGet AL s (some g) else oB, fun m hm => ?_⟩
        obtain ⟨m', rfl⟩ : ∃ m'', m = m'' + 1 := ⟨m - 1, by omega⟩
        have hcallF := hoF m' (by omega)
        have hcallB := hoB m' (by omega)
        cases oB with
        | none =>
          simp [arrow_datetime_extract, hg, hf, hb, hcallF, hcallB, bind, Except.bind,
            pure, Except.pure]
        | some v =>
          simp [arrow_datetime_extract, hg, hf, hb, hcallF, hcallB, bind, Except.bind,
            pure, Except.pure]

/-- Any format of length at least 3 stabilizes by fuel 3: a fired guard
widens an edge into `YYYY`, and by the guard lemmas the widened edge can
never fire again, so the recursion tree has depth at most 3. -/
lemma arrowConst_of_len3 {DT : Type} (AL : ArrowLib DT) (s : Option String) (f : String)
    (h3 : 3 ≤ f.data.length) : ArrowConst AL s f 3 := by
  obtain ⟨bf, hbf⟩ := wgf_isOk_of_len f h3
  obtain ⟨bb, hbb⟩ := wgb_isOk_of_len f h3
  refine arrowConst_step f 2 bf bb hbf hbb ?_ ?_
  · intro hbft
    rw [hbft] at hbf
    have htake := wgf_true_take f hbf
    have hcf : widenGuardFront (widenFront f) = .ok false := wgf_widenFront_false f htake
    have hcbeq : widenGuardBack (widenFront f) = widenGuardBack f := wgb_widenFront_eq f h3
    refine arrowConst_step (widenFront f) 1 false bb hcf (hcbeq.trans hbb) ?_ ?_
    · intro hc
      exact absurd hc (by simp)
    · intro hbbt
      rw [hbbt] at hbb
      have hlen2 : 3 ≤ (widenFront f).data.length := by
        rw [data_widenFront]
        simp only [List.length_cons]
        omega
      have hgf : widenGuardFront (widenBack (widenFront f)) = .ok false := by
        rw [wgf_widenBack_eq (widenFront f) hlen2]
        exact hcf
      have hgb : widenGuardBack (widenBack (widenFront f)) = .ok false := by
        apply wgb_widenBack_false
        exact wgb_true_drop (widenFront f) (hcbeq.trans hbb)
      exact arrowConst_noWiden hgf hgb
  · intro hbbt
    rw [hbbt] at hbb
    have hdrop := wgb_true_drop f hbb
    have hcb : widenGuardBack (widenBack f) = .ok false := wgb_widenBack_false f hdrop
    have hcfeq : widenGuardFront (widenBack f) = widenGuardFront f := wgf_widenBack_eq f h3
    refine arrowConst_step (widenBack f) 1 bf false (hcfeq.trans hbf) hcb ?_ ?_
    · intro hbft
      have hgbf : widenGuardFront (widenBack f) = .ok true := by
        rw [hcfeq, hbf, hbft]
      have htake := wgf_true_take (widenBack f) hgbf
      have hgf : widenGuardFront (widenFront (widenBack f)) = .ok false :=
        wgf_widenFront_false (widenBack f) htake
      have hlen2 : 3 ≤ (widenBack f).data.length := by
        rw [data_widenBack]
        simp only [List.length_append, List.length_cons, List.length_nil]
        omega
      have hgb : widenGuardBack (widenFront (widenBack f)) = .ok false := by
        rw [wgb_widenFront_eq (widenBack f) hlen2]
        exact hcb
      exact arrowConst_noWiden hgf hgb
    · intro hc
      exact absurd hc (by simp)

/-- C9: `arrow_datetime_extract` terminates on every date string and every
format hint of length at least 3: the recursion depth is bounded, so fuel 3
already computes the stable result (the value at any fuel of at least 3
equals the value at fuel 3, and fuel is never exhausted), because each
widening call receives a format whose widened edge (now reading `YYYY`)
no longer satisfies the 2-digit-year guard at that end. -/
theorem arrow_datetime_extract_terminates {DT : Type} (AL : ArrowLib DT)
    (date_string : Option String) (date_format : String) (n : Nat)
    (hlen : 3 ≤ date_format.length) (hn : 3 ≤ n) :
    arrow_datetime_extract AL n date_string (some date_format) =
        arrow_datetime_extract AL 3 date_string (some date_format) ∧
      arrow_datetime_extract AL 3 date_string (some date_format) ≠
        .error PyErr.fuelOut := by
  obtain ⟨o, ho⟩ := arrowConst_of_len3 AL date_string date_format hlen
  refine ⟨?_, ?_⟩
  · rw [ho n hn, ho 3 (by omega)]
  · rw [ho 3 (by omega)]
    intro h
    exact Except.noConfusion h

/-- Witness for C9 at the format hint of the repository's own tests. -/
theorem arrow_datetime_extract_terminates_witness :
    3 ≤ ("DD/MM/YY" : String).length ∧
      arrow_datetime_extract trivialAL 5 (some "01/03/05") (some "DD/MM/YY") =
          arrow_datetime_extract trivialAL 3 (some "01/03/05") (some "DD/MM/YY") ∧
        arrow_datetime_extract trivialAL 3 (some "01/03/05") (some "DD/MM/YY") ≠
          .error PyErr.fuelOut :=
  ⟨by decide,
    arrow_datetime_extract_terminates trivialAL (some "01/03/05") "DD/MM/YY" 5 (by decide)
      (by omega)⟩

/-- C2 counterexample, exhibiting both uncaught-exception paths of
`extract_datetime_string`.  (1) With the 2-character format hint `"YY"`,
the widening guard of `arrow_datetime_extract` evaluates `date_format[2]`
outside any try block and the `IndexError` escapes (here at date string
`None`, for which the pendulum stage fails with a caught exception, so the
arrow path is reached).  (2) With a hint containing `unix` and an
out-of-range epoch string, `int(...)` succeeds and
`pendulum.from_timestamp` raises `OverflowError`, which is not among the
caught `(ValueError, TypeError, RuntimeError)` at extractors.py:137 and
escapes the call. -/
theorem extract_datetime_string_raises_uncaught :
    extract_datetime_string trivialPL trivialAL trivialF none (some "YY") false =
        .error PyErr.indexError ∧
      extract_datetime_string overflowPL trivialAL trivialF
          (some "100000000000000000000") (some "unix") false =
        .error PyErr.overflowError :=
  ⟨rfl, rfl⟩

/-- C2 (amended): for every date string (a `str` or `None`) and every
format hint, `extract_datetime_string` returns an ISO-8601 string or
`None` — every parsing failure caught locally — except on the two uncaught
error paths of the counterexample: the hint must not be the exact string
`"YY"` (whose guard indexing raises an escaping `IndexError`; every
recursively widened hint is at least 5 characters long, so widening never
raises), and the strict pendulum stage must itself return rather than
raise (its only escaping error being the `OverflowError` of
`pendulum.from_timestamp` on an out-of-range `unix` epoch). -/
theorem extract_datetime_string_no_uncaught {DT : Type} (PL : PendulumLib DT)
    (AL : ArrowLib DT) (F : DTFormatter DT) (date_string date_format : Option String)
    (timezone : Bool) (hf : date_format ≠ some "YY")
    (hpend : ∃ p, pendulum_datetime_extract PL date_string date_format = .ok p) :
    ∃ o, extract_datetime_string PL AL F date_string date_format timezone = .ok o := by
  obtain ⟨p, hp⟩ := hpend
  cases p with
  | some dt =>
    refine ⟨some (if timezone then F.fmtWithOffset dt else F.fmt dt), ?_⟩
    simp [extract_datetime_string, hp, bind, Except.bind, pure, Except.pure]
  | none =>
    have harrow : ∃ o',
        arrow_datetime_extract AL arrowFuel date_string date_format = .ok o' := by
      cases date_format with
      | none => exact ⟨_, arrow_formatNone AL date_string 3⟩
      | some f =>
        by_cases hlen : 3 ≤ f.data.length
        · obtain ⟨o, ho⟩ := arrowConst_of_len3 AL date_string f hlen
          exact ⟨o, ho arrowFuel (by rw [arrowFuel]; omega)⟩
        · have hne : f ≠ "YY" := by
            intro h
            exact hf (by rw [h])
          have hgf := wgf_short_false f (by omega) hne
          have hgb := wgb_short_false f (by omega) hne
          exact ⟨_, arrow_noWiden AL date_string f hgf hgb 3⟩
    obtain ⟨o', ho'⟩ := harrow
    cases o' with
    | none =>
      refine ⟨none, ?_⟩
      simp [extract_datetime_string, hp, ho', bind, Except.bind, pure, Except.pure]
    | some dt =>
      refine ⟨some (if timezone then F.fmtWithOffset dt else F.fmt dt), ?_⟩
      simp [extract_datetime_string, hp, ho', bind, Except.bind, pure, Except.pure]

/-- Witness for C2 (amended) at the unparseable date string and plausible
format hint of the repository's tests. -/
theorem extract_datetime_string_no_uncaught_witness :
    ((some "DD/MM/YY" : Option String) ≠ some "YY" ∧
        ∃ p, pendulum_datetime_extract trivialPL (some "rubbish") (some "DD/MM/YY") =
          .ok p) ∧
      ∃ o, extract_datetime_string trivialPL trivialAL trivialF (some "rubbish")
          (some "DD/MM/YY") false = .ok o :=
  ⟨⟨by decide, ⟨none, rfl⟩⟩,
    extract_datetime_string_no_uncaught trivialPL trivialAL trivialF (some "rubbish")
      (some "DD/MM/YY") false (by decide) ⟨none, rfl⟩⟩

end Crawler
